import Mathlib

/-!
Shallow embedding of the structural signal engine of `pvtlevels_signals.py`:
pivot detection over an oscillator series, change-point flag construction,
signal fusion with a proximity window, and the timestamp left merge.
Series values are rationals; pandas `NaN` absence markers become `Option`.
The external change-point solver (`ruptures` PELT) is a black-box dependency,
so the functions that consume its result are parameterised by its output.
-/

/-- Embedding of `checkhl(data_back, data_forward, hl)`: the reference value is
the last element of `data_back`; pivot high needs `ref >= x` for every earlier
back element and `ref > x` for every forward element; pivot low is symmetric
with `<=` / `<`.  Any other `hl` string yields false.  (`data_back` is never
empty at the call site inside `pivot`; the `none` branch mirrors that an empty
back slice has no reference value.) -/
def checkhl (data_back data_forward : List ℚ) (hl : String) : Bool :=
  match data_back.getLast? with
  | none => false
  | some ref =>
    if hl = "high" then
      (data_back.dropLast.all fun x => decide (ref ≥ x)) &&
      (data_forward.all fun x => decide (ref > x))
    else if hl = "low" then
      (data_back.dropLast.all fun x => decide (ref ≤ x)) &&
      (data_forward.all fun x => decide (ref < x))
    else false

/-- Embedding of `pivot(osc, LBL, LBR, highlow)`: result has the same length
as `osc`; index `i` in `[LBL, len - LBR)` is marked with `osc[i]` when
`checkhl` accepts the windows `osc[i-LBL .. i]` and `osc[i+1 .. i+LBR]`;
every other index stays absent (`NaN` in the source). -/
def pivot (osc : List ℚ) (LBL LBR : Nat) (highlow : String) : List (Option ℚ) :=
  (List.range osc.length).map fun i =>
    if LBL ≤ i ∧ i < osc.length - LBR then
      if checkhl ((osc.drop (i - LBL)).take (LBL + 1))
                 ((osc.drop (i + 1)).take LBR) highlow then
        some (osc.getD i 0)
      else none
    else none

/-- Embedding of `detect_change_points(series, model, pen)`: the adapter calls
`rpt.Pelt(model=model).fit(series.values)` and returns `algo.predict(pen=pen)`
unchanged.  The external solver is a black box, so the embedding is
parameterised by its output `solver_bkps` and returns it as is: the adapter
performs no validation or filtering of the indices. -/
def detect_change_points (solver_bkps : List Nat) : List Nat :=
  solver_bkps

/-- Embedding of step 3 of `generate_signals`: start from an all-zero
`change_point` column of length `n` and, for each returned index `cp`, set
position `cp` to `1` only when `cp < n` (the guard `if cp < len(signals)`
that skips the trailing sentinel). -/
def change_point_flags (n : Nat) (cp_indices : List Nat) : List Nat :=
  cp_indices.foldl (fun flags cp => if cp < n then flags.set cp 1 else flags)
    (List.replicate n 0)

/-- Embedding of the proximity test in step 4 of `generate_signals`:
`window_start = max(0, i - cp_window)` (natural subtraction),
`window_end = min(len - 1, i + cp_window)`, and the test
`change_point.iloc[window_start : window_end + 1].sum() > 0`. -/
def near_change_point (flags : List Nat) (cp_window i : Nat) : Bool :=
  let ws := i - cp_window
  let we := min (flags.length - 1) (i + cp_window)
  decide (0 < ((flags.drop ws).take (we + 1 - ws)).sum)

/-- Embedding of the inner `get_signal(row)` of `generate_signals`:
`buy` when only the buy flag is set, `sell` when only the sell flag is set,
`hold` otherwise. -/
def get_signal (buy_sig sell_sig : Bool) : String :=
  if buy_sig && !sell_sig then "buy"
  else if sell_sig && !buy_sig then "sell"
  else "hold"

/-- One row of the signals frame built by `generate_signals`. -/
structure SignalRow where
  price : ℚ
  osc : ℚ
  pvtHigh : Option ℚ
  pvtLow : Option ℚ
  change_point : Nat
  buy_signal : Bool
  sell_signal : Bool
  signal : String
deriving Repr, DecidableEq, Inhabited

/-- The row of the signals frame at index `i` (the loop body of
`generate_signals`, steps 2-5): the pivot columns come from the oscillator,
the change-point flag from the price length and solver output, the buy/sell
flags from the proximity test and pivot presence, and the label from
`get_signal`. -/
def signals_row (price_data oscillator : List ℚ) (LBL LBR : Nat)
    (solver_bkps : List Nat) (cp_window : Nat) (i : Nat) : SignalRow :=
  let flags := change_point_flags price_data.length (detect_change_points solver_bkps)
  let near := near_change_point flags cp_window i
  let ph := (pivot oscillator LBL LBR "high").getD i none
  let pl := (pivot oscillator LBL LBR "low").getD i none
  let buy := near && pl.isSome
  let sell := near && ph.isSome
  { price := price_data.getD i 0
    osc := oscillator.getD i 0
    pvtHigh := ph
    pvtLow := pl
    change_point := flags.getD i 0
    buy_signal := buy
    sell_signal := sell
    signal := get_signal buy sell }

/-- Embedding of `generate_signals(price_data, oscillator, LBL, LBR, ...)`:
one `SignalRow` per index of the price series. -/
def generate_signals (price_data oscillator : List ℚ) (LBL LBR : Nat)
    (solver_bkps : List Nat) (cp_window : Nat) : List SignalRow :=
  (List.range price_data.length).map
    (signals_row price_data oscillator LBL LBR solver_bkps cp_window)

/-- Embedding of `data.merge(active_signals, left_index=True, right_index=True,
how='left')`: every original row is emitted once per matching fused row
(matched by timestamp, in fused order), and once with an absent payload when
no fused row matches. -/
def left_merge {α β : Type} (original : List (Nat × α)) (fused : List (Nat × β)) :
    List (Nat × α × Option β) :=
  original.flatMap fun r =>
    match fused.filter (fun s => s.1 == r.1) with
    | [] => [(r.1, r.2, none)]
    | ms => ms.map fun s => (r.1, r.2, some s.2)

/-- Embedding of `get_pvt_signals(data)`: price and oscillator are both the
`Close` column, `generate_signals` runs with `LBL=LBR=5`, `cp_window=8`,
the frame is filtered to the active rows (`buy_signal or sell_signal`), left
merged back onto the original rows by timestamp, the flag columns are dropped
and the `signal` column is renamed — the output carries the timestamp, the
original close value, and the optional `cpd_pvt_signals` label. -/
def get_pvt_signals (data : List (Nat × ℚ)) (solver_bkps : List Nat) :
    List (Nat × ℚ × Option String) :=
  let price := data.map Prod.snd
  let signals := generate_signals price price 5 5 solver_bkps 8
  let keyed := (data.map Prod.fst).zip signals
  let active := keyed.filter fun r => r.2.buy_signal || r.2.sell_signal
  (left_merge data active).map fun r => (r.1, r.2.1, r.2.2.map SignalRow.signal)

/-- Modelled from the spec: the output of the external segmentation solver
(the `ruptures` PELT algorithm, not part of this repository) when it cannot
produce a valid segmentation — per the spec's failure-mode contract it yields
an empty breakpoint set. -/
def solver_failure_output : List Nat := []

/-- Spec-side predicate (written from the spec's words, for the refinement
claim about pivot highs): index `i` is markable as a pivot high when the
window fits and `osc[i]` is no worse than every earlier back-window element
and strictly above every forward-window element. -/
def spec_pivot_high_marked (osc : List ℚ) (left_n right_n i : Nat) : Prop :=
  left_n ≤ i ∧ i + right_n < osc.length ∧
  (∀ j, i - left_n ≤ j → j < i → osc.getD j 0 ≤ osc.getD i 0) ∧
  (∀ j, i < j → j ≤ i + right_n → osc.getD j 0 < osc.getD i 0)

/-- Spec-side predicate for pivot lows, symmetric with `<=` / `<`. -/
def spec_pivot_low_marked (osc : List ℚ) (left_n right_n i : Nat) : Prop :=
  left_n ≤ i ∧ i + right_n < osc.length ∧
  (∀ j, i - left_n ≤ j → j < i → osc.getD i 0 ≤ osc.getD j 0) ∧
  (∀ j, i < j → j ≤ i + right_n → osc.getD i 0 < osc.getD j 0)

lemma mem_drop_take_iff {α : Type} (l : List α) (a b : Nat) (d : α) (x : α) :
    x ∈ (l.drop a).take b ↔ ∃ j, a ≤ j ∧ j < a + b ∧ j < l.length ∧ l.getD j d = x := by
  constructor
  · intro hx
    rcases List.mem_iff_getElem.mp hx with ⟨k, hk, hkx⟩
    have hlt : k < (l.drop a).length := by
      have := List.length_take b (l.drop a)
      omega
    have hkb : k < b := by
      have := List.length_take b (l.drop a)
      omega
    have h3 : a + k < l.length := by
      have := List.length_drop a l
      omega
    refine ⟨a + k, by omega, by omega, h3, ?_⟩
    have h1 : ((l.drop a).take b)[k] = (l.drop a)[k] := List.getElem_take _
    have h2 : (l.drop a)[k] = l[a + k] := List.getElem_drop _
    rw [List.getD_eq_getElem?_getD, List.getElem?_eq_getElem h3]
    simp only [Option.getD_some]
    rw [← h2, ← h1]
    exact hkx
  · rintro ⟨j, haj, hjb, hjl, hval⟩
    apply List.mem_iff_getElem.mpr
    have hk : j - a < (l.drop a).length := by
      have := List.length_drop a l
      omega
    have hkt : j - a < ((l.drop a).take b).length := by
      have := List.length_take b (l.drop a)
      have := List.length_drop a l
      omega
    refine ⟨j - a, hkt, ?_⟩
    have h1 : ((l.drop a).take b)[j - a] = (l.drop a)[j - a] := List.getElem_take _
    have h2 : (l.drop a)[j - a] = l[a + (j - a)] := List.getElem_drop _
    have heq : a + (j - a) = j := by omega
    rw [h1, h2]
    rw [List.getD_eq_getElem?_getD, List.getElem?_eq_getElem hjl] at hval
    simp only [Option.getD_some] at hval
    simp only [heq]
    exact hval

lemma sum_pos_iff_exists_ne_zero (l : List Nat) : 0 < l.sum ↔ ∃ x ∈ l, x ≠ 0 := by
  induction l with
  | nil => simp
  | cons y ys ih =>
    simp only [List.sum_cons, List.mem_cons]
    constructor
    · intro h
      by_cases hy : y = 0
      · subst hy
        simp only [Nat.zero_add] at h
        rcases ih.mp h with ⟨x, hx, hne⟩
        exact ⟨x, Or.inr hx, hne⟩
      · exact ⟨y, Or.inl rfl, hy⟩
    · rintro ⟨x, hx | hx, hne⟩
      · subst hx; omega
      · have := ih.mpr ⟨x, hx, hne⟩
        omega

lemma pivot_length (osc : List ℚ) (LBL LBR : Nat) (hl : String) :
    (pivot osc LBL LBR hl).length = osc.length := by
  unfold pivot
  rw [List.length_map, List.length_range]

lemma pivot_getD (osc : List ℚ) (LBL LBR : Nat) (hl : String) (i : Nat)
    (hi : i < osc.length) :
    (pivot osc LBL LBR hl).getD i none =
      if LBL ≤ i ∧ i < osc.length - LBR then
        if checkhl ((osc.drop (i - LBL)).take (LBL + 1))
                   ((osc.drop (i + 1)).take LBR) hl then
          some (osc.getD i 0)
        else none
      else none := by
  unfold pivot
  rw [List.getD_eq_getElem?_getD, List.getElem?_map, List.getElem?_range hi]
  rfl

lemma back_length (osc : List ℚ) (LBL i : Nat) (h1 : LBL ≤ i) (h2 : i < osc.length) :
    ((osc.drop (i - LBL)).take (LBL + 1)).length = LBL + 1 := by
  rw [List.length_take, List.length_drop]
  omega

lemma back_getLast (osc : List ℚ) (LBL i : Nat) (h1 : LBL ≤ i) (h2 : i < osc.length) :
    ((osc.drop (i - LBL)).take (LBL + 1)).getLast? = some (osc.getD i 0) := by
  rw [List.getLast?_eq_getElem?, back_length osc LBL i h1 h2]
  simp only [Nat.add_sub_cancel]
  have hlb : LBL < ((osc.drop (i - LBL)).take (LBL + 1)).length := by
    rw [back_length osc LBL i h1 h2]; omega
  rw [List.getElem?_eq_getElem hlb]
  have hdl : LBL < (osc.drop (i - LBL)).length := by
    rw [List.length_drop]; omega
  have h1' : ((osc.drop (i - LBL)).take (LBL + 1))[LBL] = (osc.drop (i - LBL))[LBL] :=
    List.getElem_take _
  have h2' : (osc.drop (i - LBL))[LBL] = osc[(i - LBL) + LBL] := List.getElem_drop _
  have heq : (i - LBL) + LBL = i := by omega
  rw [h1', h2']
  simp only [heq]
  rw [List.getD_eq_getElem?_getD, List.getElem?_eq_getElem h2]
  rfl

lemma back_dropLast (osc : List ℚ) (LBL i : Nat) (h1 : LBL ≤ i) (h2 : i < osc.length) :
    ((osc.drop (i - LBL)).take (LBL + 1)).dropLast = (osc.drop (i - LBL)).take LBL := by
  rw [List.dropLast_eq_take, back_length osc LBL i h1 h2]
  simp only [Nat.add_sub_cancel]
  rw [List.take_take]
  congr 1
  omega

lemma checkhl_high_iff (osc : List ℚ) (LBL LBR i : Nat) (hi : i < osc.length)
    (h1 : LBL ≤ i) (h2 : i < osc.length - LBR) :
    checkhl ((osc.drop (i - LBL)).take (LBL + 1)) ((osc.drop (i + 1)).take LBR) "high" = true ↔
      (∀ j, i - LBL ≤ j → j < i → osc.getD j 0 ≤ osc.getD i 0) ∧
      (∀ j, i < j → j ≤ i + LBR → osc.getD j 0 < osc.getD i 0) := by
  have hilen : i + LBR < osc.length := by omega
  unfold checkhl
  rw [back_getLast osc LBL i h1 hi]
  simp only [if_pos (rfl : ("high" : String) = "high"), if_true,
    back_dropLast osc LBL i h1 hi, Bool.and_eq_true, List.all_eq_true]
  constructor
  · rintro ⟨hb, hf⟩
    constructor
    · intro j hj1 hj2
      have hx := hb (osc.getD j 0)
        ((mem_drop_take_iff osc (i - LBL) LBL 0 _).mpr ⟨j, hj1, by omega, by omega, rfl⟩)
      simpa using hx
    · intro j hj1 hj2
      have hx := hf (osc.getD j 0)
        ((mem_drop_take_iff osc (i + 1) LBR 0 _).mpr ⟨j, by omega, by omega, by omega, rfl⟩)
      simpa using hx
  · rintro ⟨hA, hB⟩
    constructor
    · intro x hx
      rcases (mem_drop_take_iff osc (i - LBL) LBL 0 x).mp hx with ⟨j, hj1, hj2, hj3, hj4⟩
      rw [← hj4]
      simpa using hA j hj1 (by omega)
    · intro x hx
      rcases (mem_drop_take_iff osc (i + 1) LBR 0 x).mp hx with ⟨j, hj1, hj2, hj3, hj4⟩
      rw [← hj4]
      simpa using hB j (by omega) (by omega)

lemma checkhl_low_iff (osc : List ℚ) (LBL LBR i : Nat) (hi : i < osc.length)
    (h1 : LBL ≤ i) (h2 : i < osc.length - LBR) :
    checkhl ((osc.drop (i - LBL)).take (LBL + 1)) ((osc.drop (i + 1)).take LBR) "low" = true ↔
      (∀ j, i - LBL ≤ j → j < i → osc.getD i 0 ≤ osc.getD j 0) ∧
      (∀ j, i < j → j ≤ i + LBR → osc.getD i 0 < osc.getD j 0) := by
  have hilen : i + LBR < osc.length := by omega
  unfold checkhl
  rw [back_getLast osc LBL i h1 hi]
  have hne : ¬(("low" : String) = "high") := by decide
  simp only [if_neg hne, if_pos (rfl : ("low" : String) = "low"), if_true,
    back_dropLast osc LBL i h1 hi, Bool.and_eq_true, List.all_eq_true]
  constructor
  · rintro ⟨hb, hf⟩
    constructor
    · intro j hj1 hj2
      have hx := hb (osc.getD j 0)
        ((mem_drop_take_iff osc (i - LBL) LBL 0 _).mpr ⟨j, hj1, by omega, by omega, rfl⟩)
      simpa using hx
    · intro j hj1 hj2
      have hx := hf (osc.getD j 0)
        ((mem_drop_take_iff osc (i + 1) LBR 0 _).mpr ⟨j, by omega, by omega, by omega, rfl⟩)
      simpa using hx
  · rintro ⟨hA, hB⟩
    constructor
    · intro x hx
      rcases (mem_drop_take_iff osc (i - LBL) LBL 0 x).mp hx with ⟨j, hj1, hj2, hj3, hj4⟩
      rw [← hj4]
      simpa using hA j hj1 (by omega)
    · intro x hx
      rcases (mem_drop_take_iff osc (i + 1) LBR 0 x).mp hx with ⟨j, hj1, hj2, hj3, hj4⟩
      rw [← hj4]
      simpa using hB j (by omega) (by omega)

lemma pivot_high_isSome_iff (osc : List ℚ) (LBL LBR i : Nat) (hi : i < osc.length) :
    ((pivot osc LBL LBR "high").getD i none).isSome = true ↔
      spec_pivot_high_marked osc LBL LBR i := by
  rw [pivot_getD osc LBL LBR "high" i hi]
  unfold spec_pivot_high_marked
  by_cases hc : LBL ≤ i ∧ i < osc.length - LBR
  · rw [if_pos hc]
    by_cases hck : checkhl ((osc.drop (i - LBL)).take (LBL + 1))
        ((osc.drop (i + 1)).take LBR) "high" = true
    · rw [if_pos hck]
      simp only [Option.isSome_some, true_iff]
      rcases (checkhl_high_iff osc LBL LBR i hi hc.1 hc.2).mp hck with ⟨hA, hB⟩
      exact ⟨hc.1, by omega, hA, hB⟩
    · rw [if_neg hck]
      simp only [Option.isSome_none, Bool.false_eq_true, false_iff]
      rintro ⟨-, -, hA, hB⟩
      exact hck ((checkhl_high_iff osc LBL LBR i hi hc.1 hc.2).mpr ⟨hA, hB⟩)
  · rw [if_neg hc]
    simp only [Option.isSome_none, Bool.false_eq_true, false_iff]
    rintro ⟨hle, hlt, -, -⟩
    exact hc ⟨hle, by omega⟩

lemma pivot_low_isSome_iff (osc : List ℚ) (LBL LBR i : Nat) (hi : i < osc.length) :
    ((pivot osc LBL LBR "low").getD i none).isSome = true ↔
      spec_pivot_low_marked osc LBL LBR i := by
  rw [pivot_getD osc LBL LBR "low" i hi]
  unfold spec_pivot_low_marked
  by_cases hc : LBL ≤ i ∧ i < osc.length - LBR
  · rw [if_pos hc]
    by_cases hck : checkhl ((osc.drop (i - LBL)).take (LBL + 1))
        ((osc.drop (i + 1)).take LBR) "low" = true
    · rw [if_pos hck]
      simp only [Option.isSome_some, true_iff]
      rcases (checkhl_low_iff osc LBL LBR i hi hc.1 hc.2).mp hck with ⟨hA, hB⟩
      exact ⟨hc.1, by omega, hA, hB⟩
    · rw [if_neg hck]
      simp only [Option.isSome_none, Bool.false_eq_true, false_iff]
      rintro ⟨-, -, hA, hB⟩
      exact hck ((checkhl_low_iff osc LBL LBR i hi hc.1 hc.2).mpr ⟨hA, hB⟩)
  · rw [if_neg hc]
    simp only [Option.isSome_none, Bool.false_eq_true, false_iff]
    rintro ⟨hle, hlt, -, -⟩
    exact hc ⟨hle, by omega⟩

lemma pivot_not_high_and_low (osc : List ℚ) (LBL LBR i : Nat) (hLBR : 1 ≤ LBR) :
    ¬(((pivot osc LBL LBR "high").getD i none).isSome = true ∧
      ((pivot osc LBL LBR "low").getD i none).isSome = true) := by
  rintro ⟨hh, hlo⟩
  by_cases hi : i < osc.length
  · rcases (pivot_high_isSome_iff osc LBL LBR i hi).mp hh with ⟨-, hlen, -, hB⟩
    rcases (pivot_low_isSome_iff osc LBL LBR i hi).mp hlo with ⟨-, -, -, hB'⟩
    have h1 := hB (i + 1) (by omega) (by omega)
    have h2 := hB' (i + 1) (by omega) (by omega)
    linarith
  · rw [List.getD_eq_default] at hh
    · simp at hh
    · rw [pivot_length]; omega

lemma pivot_short_all_none (osc : List ℚ) (LBL LBR : Nat) (hl : String)
    (hshort : osc.length < LBL + LBR + 1) :
    pivot osc LBL LBR hl = List.replicate osc.length none := by
  apply List.eq_replicate_iff.mpr
  refine ⟨pivot_length osc LBL LBR hl, ?_⟩
  intro b hb
  unfold pivot at hb
  rcases List.mem_map.mp hb with ⟨i, hir, heq⟩
  have hi := List.mem_range.mp hir
  rw [← heq, if_neg]
  rintro ⟨hle, hlt⟩
  omega

lemma foldl_set_length (n : Nat) (cps : List Nat) (fl : List Nat) :
    (cps.foldl (fun a cp => if cp < n then a.set cp 1 else a) fl).length = fl.length := by
  induction cps generalizing fl with
  | nil => rfl
  | cons c rest ih =>
    rw [List.foldl_cons, ih]
    by_cases hc : c < n
    · rw [if_pos hc, List.length_set]
    · rw [if_neg hc]

lemma change_point_flags_length (n : Nat) (cps : List Nat) :
    (change_point_flags n cps).length = n := by
  unfold change_point_flags
  rw [foldl_set_length, List.length_replicate]

lemma foldl_set_getD (n : Nat) (cps : List Nat) (fl : List Nat) (hlen : fl.length = n)
    (j : Nat) :
    (cps.foldl (fun a cp => if cp < n then a.set cp 1 else a) fl).getD j 0 =
      if j ∈ cps ∧ j < n then 1 else fl.getD j 0 := by
  induction cps generalizing fl with
  | nil => simp
  | cons c rest ih =>
    rw [List.foldl_cons]
    have hlen' : (if c < n then fl.set c 1 else fl).length = n := by
      by_cases hc : c < n
      · rw [if_pos hc, List.length_set, hlen]
      · rw [if_neg hc, hlen]
    rw [ih _ hlen']
    by_cases hmem : j ∈ rest ∧ j < n
    · rw [if_pos hmem, if_pos ⟨List.mem_cons_of_mem c hmem.1, hmem.2⟩]
    · rw [if_neg hmem]
      by_cases hcj : j = c ∧ j < n
      · rcases hcj with ⟨hjc, hjn⟩
        subst hjc
        rw [if_pos hjn,
          if_pos (show j ∈ j :: rest ∧ j < n from ⟨List.mem_cons_self j rest, hjn⟩)]
        rw [List.getD_eq_getElem?_getD, List.getElem?_set]
        rw [if_pos rfl, if_pos (by omega)]
        rfl
      · have hout : ¬(j ∈ c :: rest ∧ j < n) := by
          rintro ⟨hm, hn⟩
          rcases List.mem_cons.mp hm with h | h
          · exact hcj ⟨h, hn⟩
          · exact hmem ⟨h, hn⟩
        rw [if_neg hout]
        by_cases hc : c < n
        · rw [if_pos hc]
          rw [List.getD_eq_getElem?_getD, List.getElem?_set]
          by_cases hcj' : c = j
          · exfalso
            by_cases hjn : j < n
            · exact hcj ⟨hcj'.symm, hjn⟩
            · exact hjn (hcj' ▸ hc)
          · rw [if_neg hcj']
            rw [List.getD_eq_getElem?_getD]
        · rw [if_neg hc]

lemma change_point_flags_getD (n : Nat) (cps : List Nat) (j : Nat) :
    (change_point_flags n cps).getD j 0 = if j ∈ cps ∧ j < n then 1 else 0 := by
  unfold change_point_flags
  rw [foldl_set_getD n cps _ (List.length_replicate n 0) j]
  by_cases h : j ∈ cps ∧ j < n
  · rw [if_pos h, if_pos h]
  · rw [if_neg h, if_neg h]
    by_cases hj : j < n
    · rw [List.getD_eq_getElem?_getD, List.getElem?_eq_getElem (by simpa using hj),
        List.getElem_replicate]
      rfl
    · rw [List.getD_eq_default]
      rw [List.length_replicate]
      omega

lemma near_change_point_iff (flags : List Nat) (pw i : Nat) :
    near_change_point flags pw i = true ↔
      ∃ j, i - pw ≤ j ∧ j ≤ i + pw ∧ j < flags.length ∧ flags.getD j 0 ≠ 0 := by
  unfold near_change_point
  simp only [decide_eq_true_eq]
  rw [sum_pos_iff_exists_ne_zero]
  constructor
  · rintro ⟨x, hx, hne⟩
    rcases (mem_drop_take_iff flags _ _ 0 x).mp hx with ⟨j, hj1, hj2, hj3, hj4⟩
    exact ⟨j, by omega, by omega, hj3, by rw [hj4]; exact hne⟩
  · rintro ⟨j, h1, h2, h3, hne⟩
    refine ⟨flags.getD j 0, ?_, hne⟩
    exact (mem_drop_take_iff flags _ _ 0 _).mpr ⟨j, by omega, by omega, h3, rfl⟩

lemma icc_sum_pos_iff (flags : List Nat) (pw i : Nat) :
    (0 < ∑ j ∈ Finset.Icc (i - pw) (min (flags.length - 1) (i + pw)), flags.getD j 0) ↔
      ∃ j, i - pw ≤ j ∧ j ≤ i + pw ∧ j < flags.length ∧ flags.getD j 0 ≠ 0 := by
  constructor
  · intro h
    by_contra hno
    push_neg at hno
    have hz : ∑ j ∈ Finset.Icc (i - pw) (min (flags.length - 1) (i + pw)),
        flags.getD j 0 = 0 := by
      apply Finset.sum_eq_zero_iff.mpr
      intro j hj
      rcases Finset.mem_Icc.mp hj with ⟨hj1, hj2⟩
      by_cases hjl : j < flags.length
      · exact hno j hj1 (by omega) hjl
      · exact List.getD_eq_default flags 0 (by omega)
    omega
  · rintro ⟨j, h1, h2, h3, hne⟩
    have hmem : j ∈ Finset.Icc (i - pw) (min (flags.length - 1) (i + pw)) :=
      Finset.mem_Icc.mpr ⟨h1, by omega⟩
    exact lt_of_lt_of_le (Nat.pos_of_ne_zero hne)
      (Finset.single_le_sum (f := fun k => flags.getD k 0) (fun a _ => Nat.zero_le _) hmem)

lemma near_iff_icc_sum (flags : List Nat) (n pw i : Nat) (hlen : flags.length = n) :
    near_change_point flags pw i = true ↔
      0 < ∑ j ∈ Finset.Icc (i - pw) (min (n - 1) (i + pw)), flags.getD j 0 := by
  subst hlen
  rw [near_change_point_iff, ← icc_sum_pos_iff]

lemma get_signal_buy_iff (b s : Bool) :
    get_signal b s = "buy" ↔ b = true ∧ ¬s = true := by
  cases b <;> cases s <;> decide

lemma get_signal_sell_iff (b s : Bool) :
    get_signal b s = "sell" ↔ s = true ∧ ¬b = true := by
  cases b <;> cases s <;> decide

lemma get_signal_hold_iff (b s : Bool) :
    get_signal b s = "hold" ↔ ¬(b = true ∧ ¬s = true) ∧ ¬(s = true ∧ ¬b = true) := by
  cases b <;> cases s <;> decide

lemma signals_row_buy (price_data oscillator : List ℚ) (LBL LBR : Nat)
    (solver_bkps : List Nat) (cp_window i : Nat) :
    (signals_row price_data oscillator LBL LBR solver_bkps cp_window i).buy_signal =
      (near_change_point
          (change_point_flags price_data.length (detect_change_points solver_bkps))
          cp_window i
        && ((pivot oscillator LBL LBR "low").getD i none).isSome) := rfl

lemma signals_row_sell (price_data oscillator : List ℚ) (LBL LBR : Nat)
    (solver_bkps : List Nat) (cp_window i : Nat) :
    (signals_row price_data oscillator LBL LBR solver_bkps cp_window i).sell_signal =
      (near_change_point
          (change_point_flags price_data.length (detect_change_points solver_bkps))
          cp_window i
        && ((pivot oscillator LBL LBR "high").getD i none).isSome) := rfl

lemma signals_row_signal (price_data oscillator : List ℚ) (LBL LBR : Nat)
    (solver_bkps : List Nat) (cp_window i : Nat) :
    (signals_row price_data oscillator LBL LBR solver_bkps cp_window i).signal =
      get_signal
        (signals_row price_data oscillator LBL LBR solver_bkps cp_window i).buy_signal
        (signals_row price_data oscillator LBL LBR solver_bkps cp_window i).sell_signal := rfl

lemma generate_signals_getD (price_data oscillator : List ℚ) (LBL LBR : Nat)
    (solver_bkps : List Nat) (cp_window i : Nat) (hi : i < price_data.length) :
    (generate_signals price_data oscillator LBL LBR solver_bkps cp_window).getD i default =
      signals_row price_data oscillator LBL LBR solver_bkps cp_window i := by
  unfold generate_signals
  rw [List.getD_eq_getElem?_getD, List.getElem?_map, List.getElem?_range hi]
  rfl

lemma mem_generate_signals (price_data oscillator : List ℚ) (LBL LBR : Nat)
    (solver_bkps : List Nat) (cp_window : Nat) (row : SignalRow) :
    row ∈ generate_signals price_data oscillator LBL LBR solver_bkps cp_window ↔
      ∃ i, i < price_data.length ∧
        row = signals_row price_data oscillator LBL LBR solver_bkps cp_window i := by
  unfold generate_signals
  rw [List.mem_map]
  constructor
  · rintro ⟨i, hir, heq⟩
    exact ⟨i, List.mem_range.mp hir, heq.symm⟩
  · rintro ⟨i, hi, heq⟩
    exact ⟨i, List.mem_range.mpr hi, heq.symm⟩

lemma signals_row_not_both (price_data oscillator : List ℚ) (LBL LBR : Nat)
    (solver_bkps : List Nat) (cp_window i : Nat) (hLBR : 1 ≤ LBR) :
    ¬((signals_row price_data oscillator LBL LBR solver_bkps cp_window i).buy_signal = true ∧
      (signals_row price_data oscillator LBL LBR solver_bkps cp_window i).sell_signal = true) := by
  rintro ⟨hb, hs⟩
  rw [signals_row_buy, Bool.and_eq_true] at hb
  rw [signals_row_sell, Bool.and_eq_true] at hs
  exact pivot_not_high_and_low oscillator LBL LBR i hLBR ⟨hs.2, hb.2⟩

lemma signals_row_active_label (price_data oscillator : List ℚ) (LBL LBR : Nat)
    (solver_bkps : List Nat) (cp_window i : Nat) (hLBR : 1 ≤ LBR)
    (hact : (signals_row price_data oscillator LBL LBR solver_bkps cp_window i).buy_signal = true ∨
      (signals_row price_data oscillator LBL LBR solver_bkps cp_window i).sell_signal = true) :
    (signals_row price_data oscillator LBL LBR solver_bkps cp_window i).signal = "buy" ∨
    (signals_row price_data oscillator LBL LBR solver_bkps cp_window i).signal = "sell" := by
  have hnb := signals_row_not_both price_data oscillator LBL LBR solver_bkps cp_window i hLBR
  rcases hact with hb | hs
  · left
    rw [signals_row_signal]
    exact (get_signal_buy_iff _ _).mpr ⟨hb, fun hs' => hnb ⟨hb, hs'⟩⟩
  · by_cases hb : (signals_row price_data oscillator LBL LBR solver_bkps cp_window i).buy_signal = true
    · exact absurd ⟨hb, hs⟩ hnb
    · right
      rw [signals_row_signal]
      exact (get_signal_sell_iff _ _).mpr ⟨hs, hb⟩

lemma near_empty_false (n pw i : Nat) :
    near_change_point (change_point_flags n []) pw i = false := by
  rw [Bool.eq_false_iff]
  intro h
  rcases (near_change_point_iff _ _ _).mp h with ⟨j, -, -, -, hne⟩
  rw [change_point_flags_getD] at hne
  simp at hne

lemma signals_row_empty_hold (price_data oscillator : List ℚ) (LBL LBR cp_window i : Nat) :
    (signals_row price_data oscillator LBL LBR solver_failure_output cp_window i).buy_signal
        = false ∧
    (signals_row price_data oscillator LBL LBR solver_failure_output cp_window i).sell_signal
        = false ∧
    (signals_row price_data oscillator LBL LBR solver_failure_output cp_window i).signal
        = "hold" := by
  have hdet : detect_change_points solver_failure_output = ([] : List Nat) := rfl
  have hb : (signals_row price_data oscillator LBL LBR solver_failure_output cp_window
      i).buy_signal = false := by
    rw [signals_row_buy, hdet, near_empty_false, Bool.false_and]
  have hs : (signals_row price_data oscillator LBL LBR solver_failure_output cp_window
      i).sell_signal = false := by
    rw [signals_row_sell, hdet, near_empty_false, Bool.false_and]
  refine ⟨hb, hs, ?_⟩
  rw [signals_row_signal, hb, hs]
  decide

lemma filter_key_eq_of_nodup {β : Type} (fused : List (Nat × β)) (t : Nat)
    (h : (fused.map Prod.fst).Nodup) :
    fused.filter (fun s => s.1 == t) =
      match List.lookup t fused with
      | none => []
      | some b => [(t, b)] := by
  induction fused with
  | nil => rfl
  | cons p rest ih =>
    rcases p with ⟨k, b⟩
    rw [List.map_cons, List.nodup_cons] at h
    rw [List.filter_cons]
    by_cases hk : k = t
    · subst hk
      rw [if_pos (by simp)]
      have hl : List.lookup k ((k, b) :: rest) = some b := by
        simp [List.lookup]
      rw [hl]
      have hrest : rest.filter (fun s => s.1 == k) = [] := by
        apply List.filter_eq_nil_iff.mpr
        intro a ha
        simp only [beq_iff_eq]
        intro hak
        exact h.1 (hak ▸ List.mem_map.mpr ⟨a, ha, rfl⟩)
      rw [hrest]
    · rw [if_neg (by simpa using hk)]
      have hl : List.lookup t ((k, b) :: rest) = List.lookup t rest := by
        have hne : (t == k) = false := by
          simp only [beq_eq_false_iff_ne]
          exact fun he => hk he.symm
        simp [List.lookup, hne]
      rw [hl, ih h.2]

lemma left_merge_nodup_eq {α β : Type} (original : List (Nat × α)) (fused : List (Nat × β))
    (h : (fused.map Prod.fst).Nodup) :
    left_merge original fused =
      original.map fun r => (r.1, r.2, List.lookup r.1 fused) := by
  induction original with
  | nil => rfl
  | cons r rest ih =>
    have hf : (match fused.filter (fun s => s.1 == r.1) with
        | [] => [(r.1, r.2, none)]
        | ms => ms.map fun s => (r.1, r.2, some s.2)) =
        [(r.1, r.2, List.lookup r.1 fused)] := by
      rw [filter_key_eq_of_nodup fused r.1 h]
      cases List.lookup r.1 fused with
      | none => rfl
      | some b => rfl
    unfold left_merge
    rw [List.flatMap_cons]
    unfold left_merge at ih
    rw [hf, ih, List.map_cons]
    rfl

lemma left_merge_third {α β : Type} (original : List (Nat × α)) (fused : List (Nat × β))
    (z : Nat × α × Option β) (hz : z ∈ left_merge original fused) :
    z.2.2 = none ∨ ∃ s ∈ fused, z.2.2 = some s.2 := by
  unfold left_merge at hz
  rcases List.mem_flatMap.mp hz with ⟨r, hr, hzr⟩
  cases hfil : fused.filter (fun s => s.1 == r.1) with
  | nil =>
    rw [hfil] at hzr
    simp only [List.mem_singleton] at hzr
    left
    rw [hzr]
  | cons m ms =>
    rw [hfil] at hzr
    simp only at hzr
    rcases List.mem_map.mp hzr with ⟨s, hs, hsz⟩
    right
    refine ⟨s, ?_, ?_⟩
    · apply List.mem_of_mem_filter (p := fun s => s.1 == r.1)
      rw [hfil]
      exact hs
    · rw [← hsz]

lemma left_merge_length_count {α β : Type} (original : List (Nat × α))
    (fused : List (Nat × β)) :
    (left_merge original fused).length =
      (original.map fun r => max 1 (fused.countP fun s => s.1 == r.1)).sum := by
  induction original with
  | nil => rfl
  | cons r rest ih =>
    unfold left_merge
    rw [List.flatMap_cons, List.length_append]
    unfold left_merge at ih
    rw [ih, List.map_cons, List.sum_cons]
    congr 1
    rw [List.countP_eq_length_filter]
    cases hfil : fused.filter (fun s => s.1 == r.1) with
    | nil => simp
    | cons m ms =>
      simp only [List.length_map, List.length_cons, List.length_nil]
      omega

/-- C1: the pivot detector marks index `i` (for kind `high`) iff
`LBL ≤ i < len - LBR`, `osc[i]` is `≥` every other back-window element and
`>` every forward-window element; symmetrically for kind `low` with `≤` / `<`;
indices outside the window range are never marked. -/
theorem pivot_marks_iff (osc : List ℚ) (LBL LBR i : Nat) (hi : i < osc.length) :
    (((pivot osc LBL LBR "high").getD i none).isSome = true ↔
      spec_pivot_high_marked osc LBL LBR i) ∧
    (((pivot osc LBL LBR "low").getD i none).isSome = true ↔
      spec_pivot_low_marked osc LBL LBR i) :=
  ⟨pivot_high_isSome_iff osc LBL LBR i hi, pivot_low_isSome_iff osc LBL LBR i hi⟩

/-- Witness for C1 at `osc = [1, 5, 2]`, `LBL = LBR = 1`, `i = 1`. -/
theorem pivot_marks_iff_witness :
    ((((pivot [1, 5, 2] 1 1 "high").getD 1 none).isSome = true ↔
      spec_pivot_high_marked [1, 5, 2] 1 1 1) ∧
     (((pivot [1, 5, 2] 1 1 "low").getD 1 none).isSome = true ↔
      spec_pivot_low_marked [1, 5, 2] 1 1 1)) ∧
    (1 : Nat) < ([1, 5, 2] : List ℚ).length :=
  ⟨pivot_marks_iff [1, 5, 2] 1 1 1 (by decide), by decide⟩

/-- C2: in the fused frame, index `i` is buy-eligible iff the sum of
change-point flags over the clamped proximity window
`[max(0, i - cp_window), min(len - 1, i + cp_window)]` is positive and a
pivot-low mark is present at `i`; sell-eligible symmetrically with the
pivot-high mark. -/
theorem fuser_eligibility_iff (price_data oscillator : List ℚ) (LBL LBR : Nat)
    (solver_bkps : List Nat) (cp_window i : Nat) (hi : i < price_data.length) :
    (((generate_signals price_data oscillator LBL LBR solver_bkps cp_window).getD i
        default).buy_signal = true ↔
      (0 < ∑ j ∈ Finset.Icc (i - cp_window)
          (min (price_data.length - 1) (i + cp_window)),
          (change_point_flags price_data.length
            (detect_change_points solver_bkps)).getD j 0) ∧
      ((pivot oscillator LBL LBR "low").getD i none).isSome = true) ∧
    (((generate_signals price_data oscillator LBL LBR solver_bkps cp_window).getD i
        default).sell_signal = true ↔
      (0 < ∑ j ∈ Finset.Icc (i - cp_window)
          (min (price_data.length - 1) (i + cp_window)),
          (change_point_flags price_data.length
            (detect_change_points solver_bkps)).getD j 0) ∧
      ((pivot oscillator LBL LBR "high").getD i none).isSome = true) := by
  rw [generate_signals_getD price_data oscillator LBL LBR solver_bkps cp_window i hi,
    signals_row_buy, signals_row_sell, Bool.and_eq_true, Bool.and_eq_true,
    near_iff_icc_sum
      (change_point_flags price_data.length (detect_change_points solver_bkps))
      price_data.length cp_window i (change_point_flags_length _ _)]
  exact ⟨Iff.rfl, Iff.rfl⟩

/-- Witness for C2 at `price = osc = [1, 5, 2]`, `LBL = LBR = 1`,
solver output `[1]`, `cp_window = 1`, `i = 1`. -/
theorem fuser_eligibility_iff_witness :
    (((generate_signals [1, 5, 2] [1, 5, 2] 1 1 [1] 1).getD 1 default).buy_signal = true ↔
      (0 < ∑ j ∈ Finset.Icc (1 - 1) (min (([1, 5, 2] : List ℚ).length - 1) (1 + 1)),
          (change_point_flags ([1, 5, 2] : List ℚ).length
            (detect_change_points [1])).getD j 0) ∧
      ((pivot [1, 5, 2] 1 1 "low").getD 1 none).isSome = true) ∧
    (((generate_signals [1, 5, 2] [1, 5, 2] 1 1 [1] 1).getD 1 default).sell_signal = true ↔
      (0 < ∑ j ∈ Finset.Icc (1 - 1) (min (([1, 5, 2] : List ℚ).length - 1) (1 + 1)),
          (change_point_flags ([1, 5, 2] : List ℚ).length
            (detect_change_points [1])).getD j 0) ∧
      ((pivot [1, 5, 2] 1 1 "high").getD 1 none).isSome = true) :=
  fuser_eligibility_iff [1, 5, 2] [1, 5, 2] 1 1 [1] 1 1 (by decide)

/-- C3: every row of the signals frame is labelled `buy` iff buy-eligible and
not sell-eligible, `sell` iff sell-eligible and not buy-eligible, and `hold`
in every other case (including both flags set). -/
theorem signal_label_iff (price_data oscillator : List ℚ) (LBL LBR : Nat)
    (solver_bkps : List Nat) (cp_window : Nat) (row : SignalRow)
    (hrow : row ∈ generate_signals price_data oscillator LBL LBR solver_bkps cp_window) :
    (row.signal = "buy" ↔ row.buy_signal = true ∧ ¬row.sell_signal = true) ∧
    (row.signal = "sell" ↔ row.sell_signal = true ∧ ¬row.buy_signal = true) ∧
    (row.signal = "hold" ↔ ¬(row.buy_signal = true ∧ ¬row.sell_signal = true) ∧
      ¬(row.sell_signal = true ∧ ¬row.buy_signal = true)) := by
  rcases (mem_generate_signals price_data oscillator LBL LBR solver_bkps cp_window
    row).mp hrow with ⟨i, hi, heq⟩
  subst heq
  rw [signals_row_signal]
  exact ⟨get_signal_buy_iff _ _, get_signal_sell_iff _ _, get_signal_hold_iff _ _⟩

/-- Witness for C3 at the frame over `[1, 5, 2]` with solver output `[1]`. -/
theorem signal_label_iff_witness :
    ((signals_row [1, 5, 2] [1, 5, 2] 1 1 [1] 1 1).signal = "buy" ↔
      (signals_row [1, 5, 2] [1, 5, 2] 1 1 [1] 1 1).buy_signal = true ∧
      ¬(signals_row [1, 5, 2] [1, 5, 2] 1 1 [1] 1 1).sell_signal = true) ∧
    ((signals_row [1, 5, 2] [1, 5, 2] 1 1 [1] 1 1).signal = "sell" ↔
      (signals_row [1, 5, 2] [1, 5, 2] 1 1 [1] 1 1).sell_signal = true ∧
      ¬(signals_row [1, 5, 2] [1, 5, 2] 1 1 [1] 1 1).buy_signal = true) ∧
    ((signals_row [1, 5, 2] [1, 5, 2] 1 1 [1] 1 1).signal = "hold" ↔
      ¬((signals_row [1, 5, 2] [1, 5, 2] 1 1 [1] 1 1).buy_signal = true ∧
        ¬(signals_row [1, 5, 2] [1, 5, 2] 1 1 [1] 1 1).sell_signal = true) ∧
      ¬((signals_row [1, 5, 2] [1, 5, 2] 1 1 [1] 1 1).sell_signal = true ∧
        ¬(signals_row [1, 5, 2] [1, 5, 2] 1 1 [1] 1 1).buy_signal = true)) :=
  signal_label_iff [1, 5, 2] [1, 5, 2] 1 1 [1] 1
    (signals_row [1, 5, 2] [1, 5, 2] 1 1 [1] 1 1) (by decide)

/-- C4: when the fused frame has no duplicate timestamps, the left merge
keeps exactly the original rows, once each and in order, attaching the fused
payload by timestamp lookup (absent when no match exists). -/
theorem merge_preserves_rows {α β : Type} (original : List (Nat × α))
    (fused : List (Nat × β)) (hnd : (fused.map Prod.fst).Nodup) :
    (left_merge original fused).length = original.length ∧
    left_merge original fused =
      original.map fun r => (r.1, r.2, List.lookup r.1 fused) := by
  have heq := left_merge_nodup_eq original fused hnd
  refine ⟨?_, heq⟩
  rw [heq, List.length_map]

/-- Witness for C4 at a two-row original and a one-row fused frame. -/
theorem merge_preserves_rows_witness :
    (left_merge [(0, (10 : ℚ)), (1, 20)] [(1, "sell")]).length =
      ([(0, (10 : ℚ)), (1, 20)]).length ∧
    left_merge [(0, (10 : ℚ)), (1, 20)] [(1, "sell")] =
      ([(0, (10 : ℚ)), (1, 20)]).map fun r => (r.1, r.2, List.lookup r.1 [(1, "sell")]) :=
  merge_preserves_rows [(0, (10 : ℚ)), (1, 20)] [(1, "sell")] (by decide)

/-- C5: in the merged output of the full pipeline, the `cpd_pvt_signals`
column is always `buy`, `sell`, or absent — never an explicit `hold`. -/
theorem merged_label_values (data : List (Nat × ℚ)) (solver_bkps : List Nat)
    (row : Nat × ℚ × Option String) (hrow : row ∈ get_pvt_signals data solver_bkps) :
    row.2.2 = none ∨ row.2.2 = some "buy" ∨ row.2.2 = some "sell" := by
  simp only [get_pvt_signals] at hrow
  rcases List.mem_map.mp hrow with ⟨z, hz, hzr⟩
  rcases left_merge_third _ _ z hz with hnone | ⟨s, hs, hsome⟩
  · left
    rw [← hzr]
    simp [hnone]
  · rcases List.mem_filter.mp hs with ⟨hkeyed, hact⟩
    rcases s with ⟨t, srow⟩
    have hsig : srow ∈ generate_signals (data.map Prod.snd) (data.map Prod.snd)
        5 5 solver_bkps 8 := (List.of_mem_zip hkeyed).2
    rcases (mem_generate_signals _ _ _ _ _ _ _).mp hsig with ⟨i, hi, heq⟩
    have hor : srow.buy_signal = true ∨ srow.sell_signal = true := by
      simpa using hact
    have hlab : srow.signal = "buy" ∨ srow.signal = "sell" := by
      subst heq
      exact signals_row_active_label _ _ _ _ _ _ _ (by omega) hor
    rw [← hzr]
    rcases hlab with h | h
    · right; left; simp [hsome, h]
    · right; right; simp [hsome, h]

/-- Witness for C5 at a one-row table with no solver breakpoints. -/
theorem merged_label_values_witness :
    ((0 : Nat), (1 : ℚ), (none : Option String)).2.2 = none ∨
    ((0 : Nat), (1 : ℚ), (none : Option String)).2.2 = some "buy" ∨
    ((0 : Nat), (1 : ℚ), (none : Option String)).2.2 = some "sell" :=
  merged_label_values [(0, 1)] [] (0, 1, none) (by decide)

/-- C6 counterexample: on a series of length 3 the external solver may
legitimately return the trailing sentinel `[3]`, and the adapter returns it
unchanged — so its output is not confined to `[0, len)`. -/
theorem cp_adapter_counterexample :
    detect_change_points [3] = [3] ∧
    ([1, 2, 5] : List ℚ).length = 3 ∧
    ¬(∀ c ∈ detect_change_points [3], c < ([1, 2, 5] : List ℚ).length) := by
  refine ⟨rfl, rfl, ?_⟩
  intro h
  exact absurd (h 3 (by decide)) (by decide)

/-- C6 amended: the adapter returns the solver's indices unvalidated; the
bounds check lives in the caller's flag construction, which sets a flag at
`j` iff `j` is a returned index with `j < n` — so the trailing sentinel never
reaches a flag position. -/
theorem cp_flags_bounds (n : Nat) (solver_bkps : List Nat) (j : Nat) :
    detect_change_points solver_bkps = solver_bkps ∧
    (change_point_flags n (detect_change_points solver_bkps)).length = n ∧
    ((change_point_flags n (detect_change_points solver_bkps)).getD j 0 = 1 ↔
      j ∈ solver_bkps ∧ j < n) := by
  unfold detect_change_points
  refine ⟨rfl, change_point_flags_length _ _, ?_⟩
  rw [change_point_flags_getD]
  by_cases h : j ∈ solver_bkps ∧ j < n
  · rw [if_pos h]
    exact iff_of_true rfl h
  · rw [if_neg h]
    exact iff_of_false (by decide) h

/-- C7: a series shorter than `LBL + LBR + 1` yields an all-absent pivot
sequence of the same length as the input, for either pivot kind. -/
theorem pivot_short_series (osc : List ℚ) (LBL LBR : Nat) (highlow : String)
    (hshort : osc.length < LBL + LBR + 1) :
    pivot osc LBL LBR highlow = List.replicate osc.length none ∧
    (pivot osc LBL LBR highlow).length = osc.length :=
  ⟨pivot_short_all_none osc LBL LBR highlow hshort, pivot_length osc LBL LBR highlow⟩

/-- Witness for C7 at a length-2 series with `LBL = LBR = 1`. -/
theorem pivot_short_series_witness :
    pivot [1, 2] 1 1 "high" = List.replicate ([1, 2] : List ℚ).length none ∧
    (pivot [1, 2] 1 1 "high").length = ([1, 2] : List ℚ).length :=
  pivot_short_series [1, 2] 1 1 "high" (by decide)

/-- C8: on the solver's failure-mode output (empty breakpoint set) the
adapter returns the empty change-point set and every row of the fused frame
degrades to all-hold: both flags false and label `hold`. -/
theorem empty_change_points_all_hold (price_data oscillator : List ℚ)
    (LBL LBR cp_window : Nat) (row : SignalRow)
    (hrow : row ∈ generate_signals price_data oscillator LBL LBR
      solver_failure_output cp_window) :
    detect_change_points solver_failure_output = [] ∧
    row.buy_signal = false ∧ row.sell_signal = false ∧ row.signal = "hold" := by
  rcases (mem_generate_signals _ _ _ _ _ _ _).mp hrow with ⟨i, hi, heq⟩
  subst heq
  exact ⟨rfl, signals_row_empty_hold price_data oscillator LBL LBR cp_window i⟩

/-- Witness for C8 at a three-row series. -/
theorem empty_change_points_all_hold_witness :
    detect_change_points solver_failure_output = [] ∧
    (signals_row [1, 5, 2] [1, 5, 2] 1 1 solver_failure_output 1 0).buy_signal = false ∧
    (signals_row [1, 5, 2] [1, 5, 2] 1 1 solver_failure_output 1 0).sell_signal = false ∧
    (signals_row [1, 5, 2] [1, 5, 2] 1 1 solver_failure_output 1 0).signal = "hold" :=
  empty_change_points_all_hold [1, 5, 2] [1, 5, 2] 1 1 1
    (signals_row [1, 5, 2] [1, 5, 2] 1 1 solver_failure_output 1 0) (by decide)

/-- C9 counterexample: with duplicate timestamps in the fused frame the merge
silently duplicates the matching original row — there is no precondition
check and no failure. -/
theorem merge_duplicate_silent_counterexample :
    left_merge [(0, (10 : ℚ))] [(0, "buy"), (0, "sell")] =
      [(0, 10, some "buy"), (0, 10, some "sell")] ∧
    (left_merge [(0, (10 : ℚ))] [(0, "buy"), (0, "sell")]).length ≠
      ([(0, (10 : ℚ))]).length := by
  decide

/-- C9 amended: the merge performs no duplicate-timestamp check; each
original row is emitted once per matching fused row (at least once), so
duplicates in the fused frame silently multiply output rows. -/
theorem merge_duplicate_multiplicity {α β : Type} (original : List (Nat × α))
    (fused : List (Nat × β)) :
    (left_merge original fused).length =
      (original.map fun r => max 1 (fused.countP fun s => s.1 == r.1)).sum :=
  left_merge_length_count original fused

/-- C10: with a forward window of at least one bar, no index is both a pivot
high and a pivot low, no fused row has both flags set, and every active row
(buy or sell flag set) is labelled `buy` or `sell`, never `hold`. -/
theorem no_simultaneous_buy_sell (price_data oscillator : List ℚ) (LBL LBR : Nat)
    (solver_bkps : List Nat) (cp_window : Nat) (hLBR : 1 ≤ LBR) :
    (∀ i, ¬(((pivot oscillator LBL LBR "high").getD i none).isSome = true ∧
      ((pivot oscillator LBL LBR "low").getD i none).isSome = true)) ∧
    (∀ row ∈ generate_signals price_data oscillator LBL LBR solver_bkps cp_window,
      ¬(row.buy_signal = true ∧ row.sell_signal = true)) ∧
    (∀ row ∈ (generate_signals price_data oscillator LBL LBR solver_bkps
        cp_window).filter (fun r => r.buy_signal || r.sell_signal),
      row.signal = "buy" ∨ row.signal = "sell") := by
  refine ⟨fun i => pivot_not_high_and_low oscillator LBL LBR i hLBR, ?_, ?_⟩
  · intro row hrow
    rcases (mem_generate_signals _ _ _ _ _ _ _).mp hrow with ⟨i, hi, heq⟩
    subst heq
    exact signals_row_not_both _ _ _ _ _ _ _ hLBR
  · intro row hrow
    rcases List.mem_filter.mp hrow with ⟨hmem, hpred⟩
    rcases (mem_generate_signals _ _ _ _ _ _ _).mp hmem with ⟨i, hi, heq⟩
    subst heq
    apply signals_row_active_label _ _ _ _ _ _ _ hLBR
    simpa using hpred

/-- Witness for C10 at the spec's example series with `LBL = LBR = 1`. -/
theorem no_simultaneous_buy_sell_witness :
    (∀ i, ¬(((pivot [1, 5, 2, 8, 3, 1, 9, 2] 1 1 "high").getD i none).isSome = true ∧
      ((pivot [1, 5, 2, 8, 3, 1, 9, 2] 1 1 "low").getD i none).isSome = true)) ∧
    (∀ row ∈ generate_signals [1, 5, 2, 8, 3, 1, 9, 2] [1, 5, 2, 8, 3, 1, 9, 2] 1 1 [3] 1,
      ¬(row.buy_signal = true ∧ row.sell_signal = true)) ∧
    (∀ row ∈ (generate_signals [1, 5, 2, 8, 3, 1, 9, 2] [1, 5, 2, 8, 3, 1, 9, 2] 1 1 [3]
        1).filter (fun r => r.buy_signal || r.sell_signal),
      row.signal = "buy" ∨ row.signal = "sell") :=
  no_simultaneous_buy_sell [1, 5, 2, 8, 3, 1, 9, 2] [1, 5, 2, 8, 3, 1, 9, 2] 1 1 [3] 1
    (by decide)
